import Mathlib

/-!
Verification comments follow.

# Verification of the image-OCR pipeline (`src/app.py`)

Shallow embedding of the processing pipeline of the Streamlit OCR app:
the image normalizer (`process_image`), the extraction client
(`extract_text_gemini`, with credential resolution and model selection),
and the batch loop that aggregates per-file results into the
`st.session_state.ocr_result` dictionary.

Modelling conventions:
* A PIL image is modelled by its color mode and pixel dimensions, the
  only attributes the pipeline inspects.  `Image.open` is modelled by the
  `decodeResult` field of an uploaded file: either the decoded image or
  the text of the exception raised during decoding.
* Python's `int(height * (MAX_IMAGE_DIMENSION / width))` truncates the
  float quotient toward zero; on the nonnegative values that occur here
  this is floor, so it is modelled by `Nat` floor division
  `height * MAX_IMAGE_DIMENSION / width` (exact rational arithmetic in
  place of IEEE floats).
* Functions returning the Python pair `(value, error)` — exactly one of
  which is `None` — are modelled with `Except String`.
* The external Gemini backend (`genai.list_models`,
  `model.generate_content`) is a parameter of the embedding: a list of
  models and a generation function whose exceptions are `Except.error`.
-/

set_option autoImplicit false

namespace OcrApp

/-- Constant `MAX_FILE_SIZE_MB = 5` from `src/app.py`. -/
def MAX_FILE_SIZE_MB : Nat := 5

/-- Constant `MAX_IMAGE_DIMENSION = 1024` from `src/app.py`. -/
def MAX_IMAGE_DIMENSION : Nat := 1024

/-- PIL color modes that a decoded PNG/JPEG image can carry
(`Image.open` on the accepted upload types yields one of these):
`1` and `L` (grayscale), `LA` (grayscale with alpha), `I` (32-bit
integer pixels), `P` (palette), `RGB`, `RGBA` (color with alpha),
`CMYK` (JPEG only). -/
inductive ColorMode where
  | one
  | L
  | LA
  | I
  | P
  | RGB
  | RGBA
  | CMYK
  deriving DecidableEq, Repr

/-- Whether a PIL mode carries an alpha channel (PIL semantics:
`RGBA` and `LA` store alpha). -/
def ColorMode.hasAlpha : ColorMode → Bool
  | .RGBA => true
  | .LA => true
  | _ => false

/-- Whether a PIL mode is palette-based (PIL semantics: mode `P`). -/
def ColorMode.hasPalette : ColorMode → Bool
  | .P => true
  | _ => false

/-- Number of channels of a PIL mode (bands per PIL semantics). -/
def ColorMode.channels : ColorMode → Nat
  | .one => 1
  | .L => 1
  | .LA => 2
  | .I => 1
  | .P => 1
  | .RGB => 3
  | .RGBA => 4
  | .CMYK => 4

/-- A decoded PIL image: the attributes `process_image` reads
(`image.mode` and `image.size`). -/
structure PILImage where
  mode : ColorMode
  width : Nat
  height : Nat
  deriving DecidableEq, Repr

/-- Model of `image.convert("RGB")`: same pixel dimensions, mode forced to RGB. -/
def PILImage.convertRGB (image : PILImage) : PILImage :=
  { image with mode := ColorMode.RGB }

/-- Model of `image.resize((new_width, new_height), Image.Resampling.LANCZOS)`:
the mode is preserved, the dimensions are replaced. -/
def PILImage.resize (image : PILImage) (new_width new_height : Nat) : PILImage :=
  { image with width := new_width, height := new_height }

/-- Decidable equality for `Except`, needed to evaluate pipeline
results on concrete inputs. -/
instance {ε α : Type} [DecidableEq ε] [DecidableEq α] :
    DecidableEq (Except ε α) := fun a b =>
  match a, b with
  | Except.error e, Except.error e' =>
    if h : e = e' then Decidable.isTrue (by rw [h])
    else Decidable.isFalse (by intro hc; injection hc; exact h (by assumption))
  | Except.error _, Except.ok _ => Decidable.isFalse (by intro hc; injection hc)
  | Except.ok _, Except.error _ => Decidable.isFalse (by intro hc; injection hc)
  | Except.ok a, Except.ok a' =>
    if h : a = a' then Decidable.isTrue (by rw [h])
    else Decidable.isFalse (by intro hc; injection hc; exact h (by assumption))

/-- An uploaded file as the pipeline sees it: `file.name`, `file.size`
(the declared byte length), and the outcome of `Image.open(file)` —
`Except.error e` models `Image.open` raising an exception with text `e`. -/
structure UploadedFile where
  name : String
  size : Nat
  decodeResult : Except String PILImage
  deriving DecidableEq, Repr

/-- The `SizeExceeded` message built at `src/app.py:34`. -/
def sizeExceededMsg : String :=
  "ファイルサイズが" ++ toString MAX_FILE_SIZE_MB ++ "MBを超えています。"

/-- The `DecodeFailed` message built at `src/app.py:54` from the
exception text. -/
def decodeFailedMsg (e : String) : String :=
  "画像の処理に失敗しました: " ++ e

/-- The `try:` body of `process_image` (`src/app.py:36-54`): decode,
color-normalize modes RGBA and P to RGB, then downscale if the longer
edge exceeds `MAX_IMAGE_DIMENSION`. -/
def decodeAndNormalize (d : Except String PILImage) : Except String PILImage :=
  match d with
  | Except.error e => Except.error (decodeFailedMsg e)
  | Except.ok image0 =>
    let image :=
      if image0.mode = ColorMode.RGBA ∨ image0.mode = ColorMode.P then
        image0.convertRGB
      else image0
    let width := image.width
    let height := image.height
    if max width height > MAX_IMAGE_DIMENSION then
      if width > height then
        Except.ok (image.resize MAX_IMAGE_DIMENSION
          (height * MAX_IMAGE_DIMENSION / width))
      else
        Except.ok (image.resize (width * MAX_IMAGE_DIMENSION / height)
          MAX_IMAGE_DIMENSION)
    else
      Except.ok image

/-- Function `process_image` (`src/app.py:27-54`): size gate, then decode and
normalize.  `Except.error` carries the user-visible rejection message. -/
def process_image (uploaded_file : UploadedFile) : Except String PILImage :=
  if uploaded_file.size > MAX_FILE_SIZE_MB * 1024 * 1024 then
    Except.error sizeExceededMsg
  else
    decodeAndNormalize uploaded_file.decodeResult

/-! ## Extraction client (`extract_text_gemini`, `src/app.py:56-106`) -/

/-- Python truthiness of the `api_key` variable: `not api_key` is true
for `None` and for the empty string. -/
def pyFalsy : Option String → Bool
  | none => true
  | some s => s == ""

/-- The Streamlit secret store as the client reads it:
`top` is the entry at the top-level key `"GEMINI_API_KEY"` (if any);
`general` is the `"general"` group (if any), holding in turn its own
optional `"GEMINI_API_KEY"` entry. -/
structure Secrets where
  top : Option String
  general : Option (Option String)
  deriving DecidableEq, Repr

/-- Credential resolution (`src/app.py:60-71`): start from the process
environment variable, then, if the value so far is falsy, fall back to
the secret store: the top-level key if present, `elif` the key nested
under the `general` group. -/
def resolveApiKey (env : Option String) (secrets : Secrets) : Option String :=
  let api_key : Option String := env
  if pyFalsy api_key then
    match secrets.top with
    | some v => some v
    | none =>
      match secrets.general with
      | some g =>
        match g with
        | some v => some v
        | none => api_key
      | none => api_key
  else api_key

/-- Python's substring test `pat in s` on lists of characters. -/
def containsSub : List Char → List Char → Bool
  | [], pat => pat.isEmpty
  | c :: t, pat => pat.isPrefixOf (c :: t) || containsSub t pat

/-- Python's substring test `pat in s` on strings. -/
def strContains (s pat : String) : Bool :=
  containsSub s.toList pat.toList

/-- One entry of `genai.list_models()`: its name and the generation
methods it supports. -/
structure GeminiModel where
  name : String
  supported_generation_methods : List String
  deriving DecidableEq, Repr

/-- The external Gemini backend: the model list returned by
`genai.list_models()` and the outcome of
`model.generate_content([prompt, image])` (`Except.error e` models the
call raising an exception with text `e`; `Except.ok t` models a
response whose `.text` is `t`). -/
structure Backend where
  models : List GeminiModel
  generate : String → String → PILImage → Except String String

/-- Replacement of every non-overlapping occurrence of `pat` by `rep`,
scanning left to right, with fuel bounding the number of steps
(one character of the input is consumed per step, so `s.length` fuel
is always enough). -/
def replaceFuel (pat rep : List Char) : Nat → List Char → List Char
  | 0, s => s
  | _ + 1, [] => []
  | fuel + 1, c :: t =>
    if pat.isPrefixOf (c :: t) && !pat.isEmpty then
      rep ++ replaceFuel pat rep fuel (List.drop (pat.length - 1) t)
    else
      c :: replaceFuel pat rep fuel t

/-- Python's `s.replace(pat, rep)` for a nonempty `pat` (the only call
site, `src/app.py:79`, uses the constant `'models/'`): every
non-overlapping occurrence is replaced, scanning left to right. -/
def pyReplace (s pat rep : String) : String :=
  if pat = "" then s
  else String.mk (replaceFuel pat.data rep.data s.data.length s.data)

/-- Line `src/app.py:79`: names of the models supporting `generateContent`,
with the `models/` prefix stripped. -/
def available_models (models : List GeminiModel) : List String :=
  (models.filter
    (fun m => m.supported_generation_methods.contains "generateContent")).map
    (fun m => pyReplace m.name "models/" "")

/-- The fixed preference list at `src/app.py:82`. -/
def preferred_models : List String :=
  ["gemini-1.5-flash", "gemini-1.5-flash-latest", "gemini-1.5-pro",
   "gemini-1.5-pro-latest", "gemini-pro-vision"]

/-- Model selection (`src/app.py:84-100`): the first preferred model
present in the available list; otherwise, if any model is available,
the first one whose name contains `"vision"` or `"1.5"`, else the first
available model; `none` when the available list is empty (the
`NoCapableModel` error path).  The Python code tests
`if not selected_model` after the preferred loop; since every entry of
`preferred_models` is a nonempty string, that test is equivalent to the
`Option` match here. -/
def select_model (availableModels : List String) : Option String :=
  let selected_model := preferred_models.find? (fun pm => availableModels.contains pm)
  match selected_model with
  | some m => some m
  | none =>
    if availableModels.isEmpty then
      none
    else
      match availableModels.find?
          (fun am => strContains am "vision" || strContains am "1.5") with
      | some m => some m
      | none => availableModels.head?

/-- The `MissingCredential` message at `src/app.py:74`. -/
def missingCredentialMsg : String :=
  "サーバー側でAPIキーが設定されていません。管理者に連絡してください。"

/-- The `NoCapableModel` message at `src/app.py:100`. -/
def noCapableModelMsg : String :=
  "有効なGeminiモデルが見つかりません。APIキーの権限を確認してください。"

/-- The catch-all message at `src/app.py:106` wrapping a backend
exception. -/
def geminiApiErrorMsg (e : String) : String :=
  "Gemini APIエラー: " ++ e

/-- Function `extract_text_gemini` (`src/app.py:56-106`): resolve the
credential, reject when it is falsy, list and select a model, then
generate.  The surrounding `try/except` converts a generation
exception into the `Gemini APIエラー:` message; `genai.configure` and
`genai.list_models` are modelled as non-throwing. -/
def extract_text_gemini (env : Option String) (secrets : Secrets)
    (backend : Backend) (image : PILImage) (promp : String) :
    Except String String :=
  let api_key := resolveApiKey env secrets
  if pyFalsy api_key then
    Except.error missingCredentialMsg
  else
    match select_model (available_models backend.models) with
    | none => Except.error noCapableModelMsg
    | some selected_model =>
      match backend.generate selected_model promp image with
      | Except.ok text => Except.ok text
      | Except.error e => Except.error (geminiApiErrorMsg e)

/-! ## Batch orchestrator (`src/app.py:120-141`) -/

/-- One value of the `st.session_state.ocr_result` dictionary
(`src/app.py:136-139`): the extracted text and the normalized image. -/
structure ResultEntry where
  text : String
  image : PILImage
  deriving DecidableEq, Repr

/-- Assignment `d[k] = v` on a Python dict modelled as an
insertion-ordered association list: an existing key keeps its position
and gets the new value, a new key is appended. -/
def dictInsert (m : List (String × ResultEntry)) (k : String)
    (v : ResultEntry) : List (String × ResultEntry) :=
  if m.any (fun p => p.1 == k) then
    m.map (fun p => if p.1 == k then (k, v) else p)
  else
    m ++ [(k, v)]

/-- The observable state of one batch run: the `ocr_result` dictionary,
the stream of `st.error` messages (filename, message), and a ghost
counter of Extraction Client invocations (incremented exactly when
`extract_text_gemini` is called). -/
structure BatchState where
  ocr_result : List (String × ResultEntry)
  errors : List (String × String)
  extractCalls : Nat
  deriving Repr

/-- The body of the `for file in uploaded_files` loop
(`src/app.py:126-139`): on a `process_image` error, report it and
`continue`; otherwise (a PIL image object is always truthy) call
`extract_text_gemini`, report its error, or store the result under
`file.name`. -/
def processFile (env : Option String) (secrets : Secrets)
    (backend : Backend) (promp_to_use : String) (s : BatchState)
    (file : UploadedFile) : BatchState :=
  match process_image file with
  | Except.error error_msg =>
    { s with errors := s.errors ++ [(file.name, error_msg)] }
  | Except.ok image =>
    let s' := { s with extractCalls := s.extractCalls + 1 }
    match extract_text_gemini env secrets backend image promp_to_use with
    | Except.error extract_error =>
      { s' with errors := s'.errors ++ [(file.name, extract_error)] }
    | Except.ok result_text =>
      { s' with ocr_result :=
          dictInsert s'.ocr_result file.name ⟨result_text, image⟩ }

/-- The whole batch run (`src/app.py:122-139`): reset `ocr_result` to
the empty dictionary, then process the uploaded files in order. -/
def runBatch (env : Option String) (secrets : Secrets) (backend : Backend)
    (promp_to_use : String) (files : List UploadedFile) : BatchState :=
  files.foldl (processFile env secrets backend promp_to_use) ⟨[], [], 0⟩

/-! ## Basic lemmas about the embedded operations -/

/-- Converting to RGB does not change the width. -/
@[simp] theorem convertRGB_width (image : PILImage) :
    image.convertRGB.width = image.width := rfl

/-- Converting to RGB does not change the height. -/
@[simp] theorem convertRGB_height (image : PILImage) :
    image.convertRGB.height = image.height := rfl

/-- Converting to RGB sets the mode to RGB. -/
@[simp] theorem convertRGB_mode (image : PILImage) :
    image.convertRGB.mode = ColorMode.RGB := rfl

/-- Resizing sets the width. -/
@[simp] theorem resize_width (image : PILImage) (w h : Nat) :
    (image.resize w h).width = w := rfl

/-- Resizing sets the height. -/
@[simp] theorem resize_height (image : PILImage) (w h : Nat) :
    (image.resize w h).height = h := rfl

/-- Resizing keeps the mode. -/
@[simp] theorem resize_mode (image : PILImage) (w h : Nat) :
    (image.resize w h).mode = image.mode := rfl

/-- Scaling a smaller edge by `c / b` with `a ≤ b` cannot exceed `c`. -/
theorem mul_div_le_of_le {a b : Nat} (c : Nat) (h : a ≤ b) : a * c / b ≤ c := by
  rcases Nat.eq_zero_or_pos a with ha | ha
  · subst ha; simp
  · calc a * c / b ≤ a * c / a := Nat.div_le_div_left h ha
      _ = c := Nat.mul_div_cancel_left c ha

/-- When the size gate passes, `process_image` is the decode pipeline. -/
theorem process_image_of_size_le (f : UploadedFile)
    (hsize : ¬ f.size > MAX_FILE_SIZE_MB * 1024 * 1024) :
    process_image f = decodeAndNormalize f.decodeResult := by
  simp [process_image, hsize]

/-- Every image produced by the decode pipeline has its longer edge
within `MAX_IMAGE_DIMENSION`. -/
theorem decodeAndNormalize_max_le (d : Except String PILImage)
    (img : PILImage) (h : decodeAndNormalize d = Except.ok img) :
    max img.width img.height ≤ MAX_IMAGE_DIMENSION := by
  cases d with
  | error e => simp [decodeAndNormalize] at h
  | ok img0 =>
    simp only [decodeAndNormalize] at h
    split_ifs at h with hm hbig hwh hbig hwh <;>
      (injection h with h; subst h) <;>
      simp only [resize_width, resize_height, convertRGB_width,
        convertRGB_height, Nat.max_le] at *
    · exact ⟨Nat.le_refl _,
        mul_div_le_of_le MAX_IMAGE_DIMENSION (Nat.le_of_lt hwh)⟩
    · exact ⟨mul_div_le_of_le MAX_IMAGE_DIMENSION (Nat.le_of_not_lt hwh),
        Nat.le_refl _⟩
    · exact Nat.max_le.mp (Nat.le_of_not_lt hbig)
    · exact ⟨Nat.le_refl _,
        mul_div_le_of_le MAX_IMAGE_DIMENSION (Nat.le_of_lt hwh)⟩
    · exact ⟨mul_div_le_of_le MAX_IMAGE_DIMENSION (Nat.le_of_not_lt hwh),
        Nat.le_refl _⟩
    · exact Nat.max_le.mp (Nat.le_of_not_lt hbig)

/-! ## Claims about the image normalizer -/

/-- C10: the size gate is a strict comparison — a file whose declared
size is at most (in particular, exactly equal to) `5 * 1024 * 1024`
bytes is not rejected with `SizeExceeded` and proceeds to the decode
pipeline; only strictly greater sizes are rejected. -/
theorem size_gate_strict (f : UploadedFile) :
    (f.size = MAX_FILE_SIZE_MB * 1024 * 1024 →
      process_image f = decodeAndNormalize f.decodeResult) ∧
    (f.size ≤ MAX_FILE_SIZE_MB * 1024 * 1024 →
      process_image f = decodeAndNormalize f.decodeResult) ∧
    (f.size > MAX_FILE_SIZE_MB * 1024 * 1024 →
      process_image f = Except.error sizeExceededMsg) := by
  refine ⟨fun h => ?_, fun h => ?_, fun h => ?_⟩
  · exact process_image_of_size_le f (by omega)
  · exact process_image_of_size_le f (by omega)
  · simp [process_image, h]

/-- Witness for C10: a file of exactly `5 * 1024 * 1024` bytes is
decoded, not rejected. -/
theorem size_gate_strict_witness :
    process_image
        ⟨"exact.png", 5 * 1024 * 1024,
          Except.ok ⟨ColorMode.RGB, 10, 10⟩⟩ =
      decodeAndNormalize (Except.ok ⟨ColorMode.RGB, 10, 10⟩) :=
  (size_gate_strict _).1 rfl

/-- C2: a file whose declared size exceeds `5 * 1024 * 1024` bytes is
rejected with the `SizeExceeded` message whatever its bytes decode to
(no decode is attempted: the result is the same for every
`decodeResult`), and in the batch loop such a file only appends that
error — the ghost counter of Extraction Client invocations does not
move, so `extract_text_gemini` is never invoked for it. -/
theorem oversize_rejected_without_decode_or_extract
    (name : String) (size : Nat) (d : Except String PILImage)
    (env : Option String) (secrets : Secrets) (backend : Backend)
    (promp : String) (s : BatchState)
    (h : size > MAX_FILE_SIZE_MB * 1024 * 1024) :
    process_image ⟨name, size, d⟩ = Except.error sizeExceededMsg ∧
    processFile env secrets backend promp s ⟨name, size, d⟩ =
      { s with errors := s.errors ++ [(name, sizeExceededMsg)] } ∧
    (processFile env secrets backend promp s ⟨name, size, d⟩).extractCalls =
      s.extractCalls := by
  have hp : process_image ⟨name, size, d⟩ = Except.error sizeExceededMsg := by
    simp [process_image, h]
  refine ⟨hp, ?_, ?_⟩ <;> simp [processFile, hp]

/-- Witness for C2: a file one byte over the limit, with perfectly
decodable bytes, is rejected with `SizeExceeded` and never reaches the
Extraction Client. -/
theorem oversize_rejected_witness :
    process_image
        ⟨"big.png", 5 * 1024 * 1024 + 1,
          Except.ok ⟨ColorMode.RGB, 10, 10⟩⟩ =
      Except.error sizeExceededMsg ∧
    processFile none ⟨none, none⟩ ⟨[], fun _ _ _ => Except.ok ""⟩ "p"
        ⟨[], [], 0⟩ ⟨"big.png", 5 * 1024 * 1024 + 1,
          Except.ok ⟨ColorMode.RGB, 10, 10⟩⟩ =
      { ocr_result := [], errors := [("big.png", sizeExceededMsg)],
        extractCalls := 0 } ∧
    (processFile none ⟨none, none⟩ ⟨[], fun _ _ _ => Except.ok ""⟩ "p"
        ⟨[], [], 0⟩ ⟨"big.png", 5 * 1024 * 1024 + 1,
          Except.ok ⟨ColorMode.RGB, 10, 10⟩⟩).extractCalls = 0 :=
  oversize_rejected_without_decode_or_extract "big.png" _ _ none ⟨none, none⟩
    ⟨[], fun _ _ _ => Except.ok ""⟩ "p" ⟨[], [], 0⟩ (by decide)

/-- Dimension the spec prescribes for the shorter edge: the scaled
value rounded to the nearest integer (round half up; at the
counterexample below the fraction is 2/3, where every rounding-to-
nearest convention agrees). -/
def specRoundedEdge (shorter longer : Nat) : Nat :=
  (shorter * MAX_IMAGE_DIMENSION + longer / 2) / longer

/-- Counterexample to C1: a 3000×2000 RGBA image of 4 MiB is resized
to 1024×682 — the code truncates `2000 * (1024 / 3000)` with `int()` —
while the claim prescribes `round(2000 * 1024 / 3000) = 683`. -/
theorem resize_rounding_counterexample :
    process_image
        ⟨"photo.png", 4 * 1024 * 1024,
          Except.ok ⟨ColorMode.RGBA, 3000, 2000⟩⟩ =
      Except.ok ⟨ColorMode.RGB, 1024, 682⟩ ∧
    specRoundedEdge 2000 3000 = 683 ∧ (682 : Nat) ≠ 683 := by
  decide

/-- C1 (amended): for every decoded image whose longer edge exceeds
`MAX_IMAGE_DIMENSION`, the longer edge of the result is exactly
`MAX_IMAGE_DIMENSION` and the shorter edge is the *truncated* value
`⌊shorter * MAX_IMAGE_DIMENSION / longer⌋` (a width strictly greater
than the height counts as the longer edge; on a tie the height branch
is taken); a 3000×2000 input is resized to 1024×682. -/
theorem resize_bounds_longer_edge (f : UploadedFile) (img : PILImage)
    (hsize : ¬ f.size > MAX_FILE_SIZE_MB * 1024 * 1024)
    (hdec : f.decodeResult = Except.ok img)
    (hbig : max img.width img.height > MAX_IMAGE_DIMENSION) :
    ∃ out, process_image f = Except.ok out ∧
      out.width = (if img.width > img.height then MAX_IMAGE_DIMENSION
        else img.width * MAX_IMAGE_DIMENSION / img.height) ∧
      out.height = (if img.width > img.height then
        img.height * MAX_IMAGE_DIMENSION / img.width
        else MAX_IMAGE_DIMENSION) := by
  rw [process_image_of_size_le f hsize, hdec]
  simp only [decodeAndNormalize]
  by_cases hm : img.mode = ColorMode.RGBA ∨ img.mode = ColorMode.P
  · rw [if_pos hm]
    simp only [convertRGB_width, convertRGB_height]
    rw [if_pos hbig]
    by_cases hwh : img.width > img.height
    · rw [if_pos hwh]; exact ⟨_, rfl, by simp [hwh], by simp [hwh]⟩
    · rw [if_neg hwh]; exact ⟨_, rfl, by simp [hwh], by simp [hwh]⟩
  · rw [if_neg hm, if_pos hbig]
    by_cases hwh : img.width > img.height
    · rw [if_pos hwh]; exact ⟨_, rfl, by simp [hwh], by simp [hwh]⟩
    · rw [if_neg hwh]; exact ⟨_, rfl, by simp [hwh], by simp [hwh]⟩

/-- Witness for C1 (amended): the 3000×2000 image goes to 1024×682. -/
theorem resize_bounds_longer_edge_witness :
    ∃ out,
      process_image
          ⟨"photo.png", 4 * 1024 * 1024,
            Except.ok ⟨ColorMode.RGBA, 3000, 2000⟩⟩ =
        Except.ok out ∧
      out.width = (if 3000 > 2000 then MAX_IMAGE_DIMENSION
        else 3000 * MAX_IMAGE_DIMENSION / 2000) ∧
      out.height = (if 3000 > 2000 then 2000 * MAX_IMAGE_DIMENSION / 3000
        else MAX_IMAGE_DIMENSION) :=
  resize_bounds_longer_edge _ ⟨ColorMode.RGBA, 3000, 2000⟩ (by decide) rfl
    (by decide)

/-- Counterexample to C3: a 100×80 grayscale-with-alpha image (PIL
mode `LA`, as produced by a grayscale PNG with transparency) carries an
alpha channel, yet `process_image` returns it unconverted with its two
channels — the code only converts the modes `RGBA` and `P`. -/
theorem alpha_not_converted_counterexample :
    ColorMode.hasAlpha ColorMode.LA = true ∧
    process_image ⟨"gray.png", 1000, Except.ok ⟨ColorMode.LA, 100, 80⟩⟩ =
      Except.ok ⟨ColorMode.LA, 100, 80⟩ ∧
    ColorMode.channels ColorMode.LA ≠ 3 := by
  decide

/-- C3 (amended): a decoded image whose mode is `RGBA` or `P` is
converted to the flat 3-channel `RGB` mode before the resize step,
and the successfully normalized result of such an image is always
3-channel `RGB` (images with alpha in other modes, such as `LA`, are
left unconverted). -/
theorem rgba_p_converted_to_rgb (f : UploadedFile) (img : PILImage)
    (hsize : ¬ f.size > MAX_FILE_SIZE_MB * 1024 * 1024)
    (hdec : f.decodeResult = Except.ok img)
    (hmode : img.mode = ColorMode.RGBA ∨ img.mode = ColorMode.P) :
    ∃ out, process_image f = Except.ok out ∧
      out.mode = ColorMode.RGB ∧ out.mode.channels = 3 := by
  rw [process_image_of_size_le f hsize, hdec]
  simp only [decodeAndNormalize, if_pos hmode]
  split_ifs <;> exact ⟨_, rfl, by simp, by simp [ColorMode.channels]⟩

/-- Witness for C3 (amended): an RGBA image comes out as RGB. -/
theorem rgba_p_converted_to_rgb_witness :
    ∃ out,
      process_image
          ⟨"photo.png", 4 * 1024 * 1024,
            Except.ok ⟨ColorMode.RGBA, 3000, 2000⟩⟩ =
        Except.ok out ∧
      out.mode = ColorMode.RGB ∧ out.mode.channels = 3 :=
  rgba_p_converted_to_rgb _ ⟨ColorMode.RGBA, 3000, 2000⟩ (by decide) rfl
    (Or.inl rfl)

/-- C9: normalization never upscales — when the longer edge of the
decoded image is within `MAX_IMAGE_DIMENSION` the dimensions are left
unchanged — and it is idempotent on dimensions: feeding a normalized
image through the pipeline again yields identical width and height. -/
theorem normalize_noop_and_idempotent (f f2 : UploadedFile)
    (img out : PILImage)
    (hsize : ¬ f.size > MAX_FILE_SIZE_MB * 1024 * 1024)
    (hdec : f.decodeResult = Except.ok img)
    (hout : process_image f = Except.ok out)
    (hsize2 : ¬ f2.size > MAX_FILE_SIZE_MB * 1024 * 1024)
    (hdec2 : f2.decodeResult = Except.ok out) :
    (max img.width img.height ≤ MAX_IMAGE_DIMENSION →
      out.width = img.width ∧ out.height = img.height) ∧
    (∃ out2, process_image f2 = Except.ok out2 ∧
      out2.width = out.width ∧ out2.height = out.height) := by
  constructor
  · intro hle
    rw [process_image_of_size_le f hsize, hdec] at hout
    simp only [decodeAndNormalize] at hout
    split_ifs at hout with hm hbig hwh hbig hwh <;>
      (injection hout with hout; subst hout)
    · exact absurd hbig (Nat.not_lt.mpr hle)
    · exact absurd hbig (Nat.not_lt.mpr hle)
    · exact ⟨rfl, rfl⟩
    · exact absurd hbig (Nat.not_lt.mpr hle)
    · exact absurd hbig (Nat.not_lt.mpr hle)
    · exact ⟨rfl, rfl⟩
  · have hb : max out.width out.height ≤ MAX_IMAGE_DIMENSION := by
      rw [process_image_of_size_le f hsize, hdec] at hout
      exact decodeAndNormalize_max_le _ _ hout
    rw [process_image_of_size_le f2 hsize2, hdec2]
    simp only [decodeAndNormalize]
    by_cases hm : out.mode = ColorMode.RGBA ∨ out.mode = ColorMode.P
    · rw [if_pos hm]
      simp only [convertRGB_width, convertRGB_height]
      rw [if_neg (by omega)]
      exact ⟨_, rfl, rfl, rfl⟩
    · rw [if_neg hm, if_neg (by omega)]
      exact ⟨_, rfl, rfl, rfl⟩

/-- Witness for C9: an 800×600 image is left at 800×600, and running
the pipeline on the result again keeps 800×600. -/
theorem normalize_noop_and_idempotent_witness :
    (max 800 600 ≤ MAX_IMAGE_DIMENSION →
      (800 : Nat) = 800 ∧ (600 : Nat) = 600) ∧
    (∃ out2,
      process_image ⟨"a.jpg", 2 * 1024 * 1024,
          Except.ok ⟨ColorMode.RGB, 800, 600⟩⟩ = Except.ok out2 ∧
      out2.width = 800 ∧ out2.height = 600) :=
  normalize_noop_and_idempotent
    ⟨"a.jpg", 2 * 1024 * 1024, Except.ok ⟨ColorMode.RGB, 800, 600⟩⟩
    ⟨"a.jpg", 2 * 1024 * 1024, Except.ok ⟨ColorMode.RGB, 800, 600⟩⟩
    ⟨ColorMode.RGB, 800, 600⟩ ⟨ColorMode.RGB, 800, 600⟩
    (by decide) rfl (by decide) (by decide) rfl

/-! ## Claims about credential resolution -/

/-- Credential resolution as the claim words it: the first *present*
source wins — environment variable, then top-level secret, then the
secret nested under the `general` group — and a later source is
consulted only when every earlier one is absent. -/
def resolveApiKey_claim (env : Option String) (secrets : Secrets) :
    Option String :=
  match env with
  | some v => some v
  | none =>
    match secrets.top with
    | some v => some v
    | none =>
      match secrets.general with
      | some (some v) => some v
      | _ => none

/-- Counterexample to C4: with the environment variable present but
empty and a top-level secret `"secret-key"`, the code consults the
later source and returns `"secret-key"`, while the claim says the
present environment value wins. -/
theorem credential_order_counterexample :
    resolveApiKey (some "") ⟨some "secret-key", none⟩ =
      some "secret-key" ∧
    resolveApiKey_claim (some "") ⟨some "secret-key", none⟩ = some "" ∧
    resolveApiKey (some "") ⟨some "secret-key", none⟩ ≠
      resolveApiKey_claim (some "") ⟨some "secret-key", none⟩ := by
  decide

/-- C4 (amended): resolution tries the environment variable, the
top-level secret key, and the key nested under the `general` group, in
that order, but a source wins only per Python truthiness: a *nonempty*
environment value wins; if the environment value is absent *or empty*,
a present top-level key wins (shadowing the nested key even when its
value is empty, by the `elif`); failing that, a present nested key
wins; otherwise the (absent or empty) environment value is kept. -/
theorem credential_order_amended (env : Option String) (s : Secrets) :
    (∀ v, env = some v → v ≠ "" → resolveApiKey env s = some v) ∧
    ((env = none ∨ env = some "") → ∀ v, s.top = some v →
      resolveApiKey env s = some v) ∧
    ((env = none ∨ env = some "") → s.top = none →
      ∀ v, s.general = some (some v) → resolveApiKey env s = some v) ∧
    ((env = none ∨ env = some "") → s.top = none →
      (s.general = none ∨ s.general = some none) →
      resolveApiKey env s = env) := by
  refine ⟨?_, ?_, ?_, ?_⟩
  · intro v hv hne
    subst hv
    simp [resolveApiKey, pyFalsy, hne]
  · intro henv v htop
    rcases henv with rfl | rfl <;> simp [resolveApiKey, pyFalsy, htop]
  · intro henv htop v hgen
    rcases henv with rfl | rfl <;>
      simp [resolveApiKey, pyFalsy, htop, hgen]
  · intro henv htop hgen
    rcases henv with rfl | rfl <;> rcases hgen with hgen | hgen <;>
      simp [resolveApiKey, pyFalsy, htop, hgen]

/-- Witness for C4 (amended): with an empty environment value, the
top-level secret wins. -/
theorem credential_order_amended_witness :
    resolveApiKey (some "") ⟨some "secret-key", none⟩ =
      some "secret-key" :=
  (credential_order_amended (some "") ⟨some "secret-key", none⟩).2.1
    (Or.inr rfl) "secret-key" rfl

/-! ## Claims about model selection -/

/-- Model selection as the claim words it: first preferred identifier
present in the available list, else first available identifier
containing a capability marker, else the first available model, else
nothing. -/
def select_model_claim (availableModels : List String) : Option String :=
  ((preferred_models.find? fun pm => availableModels.contains pm).or
    ((availableModels.find? fun am =>
        strContains am "vision" || strContains am "1.5").or
      availableModels.head?))

/-- C6: the implemented model selection equals the claimed
first-preferred / first-marker / first-any cascade, selects nothing
from an empty list, and an empty available-model list makes the
extraction fail with the `NoCapableModel` message (given a credential,
i.e. a non-falsy resolved key). -/
theorem model_selection_order (available : List String)
    (env : Option String) (s : Secrets) (b : Backend) (image : PILImage)
    (promp : String) :
    select_model available = select_model_claim available ∧
    (available = [] → select_model available = none) ∧
    (available_models b.models = [] →
      pyFalsy (resolveApiKey env s) = false →
      extract_text_gemini env s b image promp =
        Except.error noCapableModelMsg) := by
  have hmain : select_model available = select_model_claim available := by
    unfold select_model select_model_claim
    cases hf : preferred_models.find? (fun pm => available.contains pm) with
    | some m => simp [Option.or]
    | none =>
      simp only [Option.or]
      cases available with
      | nil => simp
      | cons a t =>
        cases hg : (a :: t).find?
            (fun am => strContains am "vision" || strContains am "1.5") with
        | some m => simp [hg]
        | none => simp [hg]
  refine ⟨hmain, ?_, ?_⟩
  · intro h
    subst h
    rfl
  · intro h1 h2
    simp only [extract_text_gemini, h2, h1]
    rfl

/-- Witness for C6: with a backend listing zero models and a resolved
credential, extraction fails with the `NoCapableModel` message. -/
theorem model_selection_order_witness :
    extract_text_gemini (some "k") ⟨none, none⟩
        ⟨[], fun _ _ _ => Except.ok ""⟩ ⟨ColorMode.RGB, 8, 8⟩ "p" =
      Except.error noCapableModelMsg :=
  (model_selection_order [] (some "k") ⟨none, none⟩
      ⟨[], fun _ _ _ => Except.ok ""⟩ ⟨ColorMode.RGB, 8, 8⟩ "p").2.2
    rfl (by decide)

/-! ## Claims about the batch loop -/

/-- Whether a file comes out of the loop body with a stored result:
its normalization succeeds and so does its extraction. -/
def fileSucceeds (env : Option String) (s : Secrets) (b : Backend)
    (p : String) (f : UploadedFile) : Bool :=
  match process_image f with
  | Except.error _ => false
  | Except.ok image =>
    match extract_text_gemini env s b image p with
    | Except.error _ => false
    | Except.ok _ => true

/-- A failing file only appends one error message and leaves the
result dictionary untouched. -/
theorem processFile_of_fail (env : Option String) (s : Secrets)
    (b : Backend) (p : String) (st : BatchState) (f : UploadedFile)
    (h : fileSucceeds env s b p f = false) :
    ∃ msg, (processFile env s b p st f).ocr_result = st.ocr_result ∧
      (processFile env s b p st f).errors = st.errors ++ [(f.name, msg)] := by
  cases hp : process_image f with
  | error m =>
    exact ⟨m, by simp [processFile, hp], by simp [processFile, hp]⟩
  | ok image =>
    cases he : extract_text_gemini env s b image p with
    | error m =>
      exact ⟨m, by simp [processFile, hp, he], by simp [processFile, hp, he]⟩
    | ok t =>
      simp only [fileSucceeds, hp, he] at h
      cases h

/-- A succeeding file stores its entry under its filename and reports
no error. -/
theorem processFile_of_succeed (env : Option String) (s : Secrets)
    (b : Backend) (p : String) (st : BatchState) (f : UploadedFile)
    (h : fileSucceeds env s b p f = true) :
    ∃ image t, process_image f = Except.ok image ∧
      extract_text_gemini env s b image p = Except.ok t ∧
      (processFile env s b p st f).ocr_result =
        dictInsert st.ocr_result f.name ⟨t, image⟩ ∧
      (processFile env s b p st f).errors = st.errors := by
  cases hp : process_image f with
  | error m =>
    simp only [fileSucceeds, hp] at h
    exact Bool.noConfusion h
  | ok image =>
    cases he : extract_text_gemini env s b image p with
    | error m =>
      simp only [fileSucceeds, hp, he] at h
      exact Bool.noConfusion h
    | ok t =>
      exact ⟨image, t, rfl, he, by simp [processFile, hp, he],
        by simp [processFile, hp, he]⟩

/-- Inserting a fresh key appends the pair at the end. -/
theorem dictInsert_of_forall_ne (m : List (String × ResultEntry))
    (k : String) (v : ResultEntry) (h : ∀ q ∈ m, q.1 ≠ k) :
    dictInsert m k v = m ++ [(k, v)] := by
  have hany : m.any (fun p => p.1 == k) = false := by
    rw [List.any_eq_false]
    intro q hq
    simpa using h q hq
  simp [dictInsert, hany]

/-- Counting lemma for the batch loop: over pairwise-distinct
filenames that are also fresh with respect to the starting dictionary,
the dictionary grows by exactly the number of succeeding files and the
error stream by exactly the number of failing ones. -/
theorem foldl_batch_lengths (env : Option String) (s : Secrets)
    (b : Backend) (p : String) (files : List UploadedFile) :
    List.Pairwise (fun f g => f.name ≠ g.name) files →
    ∀ st : BatchState,
    (∀ f ∈ files, ∀ q ∈ st.ocr_result, q.1 ≠ f.name) →
    (List.foldl (processFile env s b p) st files).ocr_result.length =
      st.ocr_result.length +
        List.countP (fun f => fileSucceeds env s b p f) files ∧
    (List.foldl (processFile env s b p) st files).errors.length =
      st.errors.length +
        List.countP (fun f => ! fileSucceeds env s b p f) files := by
  induction files with
  | nil => intro _ st _; simp
  | cons f t ih =>
    intro hpw st hinv
    rcases List.pairwise_cons.mp hpw with ⟨hft, hpwt⟩
    simp only [List.foldl_cons]
    cases hs : fileSucceeds env s b p f with
    | true =>
      rcases processFile_of_succeed env s b p st f hs with
        ⟨image, tx, _, _, hocr, herr⟩
      have hocr2 : (processFile env s b p st f).ocr_result =
          st.ocr_result ++ [(f.name, ⟨tx, image⟩)] := by
        rw [hocr, dictInsert_of_forall_ne _ _ _
          (fun q hq => hinv f (List.mem_cons_self f t) q hq)]
      have hinv2 : ∀ g ∈ t,
          ∀ q ∈ (processFile env s b p st f).ocr_result, q.1 ≠ g.name := by
        intro g hg q hq
        rw [hocr2] at hq
        rcases List.mem_append.mp hq with hq | hq
        · exact hinv g (List.mem_cons_of_mem f hg) q hq
        · have : q = (f.name, ⟨tx, image⟩) := by simpa using hq
          rw [this]
          exact hft g hg
      rcases ih hpwt (processFile env s b p st f) hinv2 with ⟨ih1, ih2⟩
      constructor
      · rw [ih1, hocr2]
        simp [List.countP_cons, hs]
        omega
      · rw [ih2, herr]
        simp [List.countP_cons, hs]
    | false =>
      rcases processFile_of_fail env s b p st f hs with ⟨msg, hocr, herr⟩
      have hinv2 : ∀ g ∈ t,
          ∀ q ∈ (processFile env s b p st f).ocr_result, q.1 ≠ g.name := by
        rw [hocr]
        exact fun g hg => hinv g (List.mem_cons_of_mem f hg)
      rcases ih hpwt (processFile env s b p st f) hinv2 with ⟨ih1, ih2⟩
      constructor
      · rw [ih1, hocr]
        simp [List.countP_cons, hs]
      · rw [ih2, herr]
        simp [List.countP_cons, hs]
        omega

/-- A concrete backend for concrete batch runs: one capable listed
model, and a generation call that answers with the image's width. -/
def stubBackend : Backend :=
  { models := [⟨"models/gemini-1.5-flash", ["generateContent"]⟩],
    generate := fun _ _ image => Except.ok (toString image.width) }

/-- Counterexample to C7: in the batch [a.png OK, a.png OK, b.png
undecodable] exactly one file fails and the other two succeed, yet the
ResultSet holds 1 entry, not N − 1 = 2 — the two successes share a
filename and the later overwrites the earlier. -/
theorem batch_isolation_counterexample :
    fileSucceeds (some "k") ⟨none, none⟩ stubBackend "p"
      ⟨"a.png", 100, Except.ok ⟨ColorMode.RGB, 10, 10⟩⟩ = true ∧
    fileSucceeds (some "k") ⟨none, none⟩ stubBackend "p"
      ⟨"a.png", 100, Except.ok ⟨ColorMode.RGB, 20, 20⟩⟩ = true ∧
    fileSucceeds (some "k") ⟨none, none⟩ stubBackend "p"
      ⟨"b.png", 100, Except.error "cannot identify image file"⟩ = false ∧
    (runBatch (some "k") ⟨none, none⟩ stubBackend "p"
      [⟨"a.png", 100, Except.ok ⟨ColorMode.RGB, 10, 10⟩⟩,
       ⟨"a.png", 100, Except.ok ⟨ColorMode.RGB, 20, 20⟩⟩,
       ⟨"b.png", 100, Except.error "cannot identify image file"⟩]).ocr_result.length = 1 ∧
    (runBatch (some "k") ⟨none, none⟩ stubBackend "p"
      [⟨"a.png", 100, Except.ok ⟨ColorMode.RGB, 10, 10⟩⟩,
       ⟨"a.png", 100, Except.ok ⟨ColorMode.RGB, 20, 20⟩⟩,
       ⟨"b.png", 100, Except.error "cannot identify image file"⟩]).errors.length = 1 ∧
    (1 : Nat) ≠ 3 - 1 := by
  decide

/-- C7 (amended): in a batch of pairwise-distinctly-named files in
which one file fails (at normalization or extraction) and every other
file succeeds, the run processes all files, exactly N − 1 entries land
in the ResultSet and exactly one error is reported, regardless of the
failing file's position. -/
theorem batch_isolation_distinct_names (env : Option String)
    (s : Secrets) (b : Backend) (p : String)
    (before after : List UploadedFile) (bad : UploadedFile)
    (hdist : List.Pairwise (fun f g => f.name ≠ g.name)
      (before ++ bad :: after))
    (hbad : fileSucceeds env s b p bad = false)
    (hok : ∀ f ∈ before ++ after, fileSucceeds env s b p f = true) :
    (runBatch env s b p (before ++ bad :: after)).ocr_result.length =
      before.length + after.length ∧
    (runBatch env s b p (before ++ bad :: after)).errors.length = 1 := by
  have hcount := foldl_batch_lengths env s b p (before ++ bad :: after)
    hdist ⟨[], [], 0⟩ (by simp)
  rcases hcount with ⟨h1, h2⟩
  have hsb : List.countP (fun f => fileSucceeds env s b p f) before =
      before.length :=
    List.countP_eq_length.mpr (fun f hf => hok f (List.mem_append_left _ hf))
  have hsa : List.countP (fun f => fileSucceeds env s b p f) after =
      after.length :=
    List.countP_eq_length.mpr (fun f hf => hok f (List.mem_append_right _ hf))
  have hfb : List.countP (fun f => ! fileSucceeds env s b p f) before = 0 := by
    rw [List.countP_eq_zero]
    intro f hf
    simp [hok f (List.mem_append_left _ hf)]
  have hfa : List.countP (fun f => ! fileSucceeds env s b p f) after = 0 := by
    rw [List.countP_eq_zero]
    intro f hf
    simp [hok f (List.mem_append_right _ hf)]
  constructor
  · rw [runBatch, h1]
    rw [List.countP_append, List.countP_cons, hsb, hsa, hbad]
    simp
  · rw [runBatch, h2]
    rw [List.countP_append, List.countP_cons, hfb, hfa, hbad]
    simp

/-- Witness for C7 (amended): a 3-file batch with distinct names whose
middle file is undecodable ends with 2 entries and 1 error. -/
theorem batch_isolation_distinct_names_witness :
    (runBatch (some "k") ⟨none, none⟩ stubBackend "p"
      ([⟨"a.png", 100, Except.ok ⟨ColorMode.RGB, 10, 10⟩⟩] ++
        ⟨"b.png", 100, Except.error "cannot identify image file"⟩ ::
        [⟨"c.png", 100, Except.ok ⟨ColorMode.RGB, 20, 20⟩⟩])).ocr_result.length =
      1 + 1 ∧
    (runBatch (some "k") ⟨none, none⟩ stubBackend "p"
      ([⟨"a.png", 100, Except.ok ⟨ColorMode.RGB, 10, 10⟩⟩] ++
        ⟨"b.png", 100, Except.error "cannot identify image file"⟩ ::
        [⟨"c.png", 100, Except.ok ⟨ColorMode.RGB, 20, 20⟩⟩])).errors.length =
      1 :=
  batch_isolation_distinct_names (some "k") ⟨none, none⟩ stubBackend "p"
    [⟨"a.png", 100, Except.ok ⟨ColorMode.RGB, 10, 10⟩⟩]
    [⟨"c.png", 100, Except.ok ⟨ColorMode.RGB, 20, 20⟩⟩]
    ⟨"b.png", 100, Except.error "cannot identify image file"⟩
    (by decide) (by decide) (by decide)

/-- C8: when two files with the same filename both normalize and
extract successfully, the final ResultSet holds exactly one entry under
that filename, carrying the text and image of the later-processed
file. -/
theorem filename_collision_last_wins (env : Option String) (s : Secrets)
    (b : Backend) (p : String) (f1 f2 : UploadedFile)
    (img1 img2 : PILImage) (t1 t2 : String)
    (hname : f1.name = f2.name)
    (h1 : process_image f1 = Except.ok img1)
    (h1e : extract_text_gemini env s b img1 p = Except.ok t1)
    (h2 : process_image f2 = Except.ok img2)
    (h2e : extract_text_gemini env s b img2 p = Except.ok t2) :
    (runBatch env s b p [f1, f2]).ocr_result =
      [(f2.name, ⟨t2, img2⟩)] := by
  simp [runBatch, processFile, h1, h1e, h2, h2e, dictInsert, hname]

/-- Witness for C8: two same-named files whose extractions answer
"10" and "20" leave one entry holding "20" and the second image. -/
theorem filename_collision_last_wins_witness :
    (runBatch (some "k") ⟨none, none⟩ stubBackend "p"
      [⟨"a.png", 100, Except.ok ⟨ColorMode.RGB, 10, 10⟩⟩,
       ⟨"a.png", 100, Except.ok ⟨ColorMode.RGB, 20, 20⟩⟩]).ocr_result =
      [("a.png", ⟨"20", ⟨ColorMode.RGB, 20, 20⟩⟩)] :=
  filename_collision_last_wins (some "k") ⟨none, none⟩ stubBackend "p"
    ⟨"a.png", 100, Except.ok ⟨ColorMode.RGB, 10, 10⟩⟩
    ⟨"a.png", 100, Except.ok ⟨ColorMode.RGB, 20, 20⟩⟩
    ⟨ColorMode.RGB, 10, 10⟩ ⟨ColorMode.RGB, 20, 20⟩ "10" "20"
    rfl (by decide) (by decide) (by decide) (by decide)

/-- With no credential in the environment, at the top-level secret key
or nested under the `general` group, resolution yields nothing. -/
theorem resolveApiKey_of_absent (env : Option String) (s : Secrets)
    (henv : env = none) (htop : s.top = none)
    (hgen : s.general = none ∨ s.general = some none) :
    resolveApiKey env s = none := by
  subst henv
  rcases hgen with hgen | hgen <;> simp [resolveApiKey, pyFalsy, htop, hgen]

/-- The per-file error message of a run in which every extraction
fails with `MissingCredential`: the normalization error when the file
is rejected, the `MissingCredential` message otherwise. -/
def missingCredBatchError (f : UploadedFile) : String :=
  match process_image f with
  | Except.error m => m
  | Except.ok _ => missingCredentialMsg

/-- When every extraction fails with the `MissingCredential` message,
the batch loop stores nothing and reports one error per file. -/
theorem foldl_all_missing_cred (env : Option String) (s : Secrets)
    (b : Backend) (p : String)
    (hext : ∀ image, extract_text_gemini env s b image p =
      Except.error missingCredentialMsg)
    (files : List UploadedFile) :
    ∀ st : BatchState,
    (List.foldl (processFile env s b p) st files).ocr_result =
      st.ocr_result ∧
    (List.foldl (processFile env s b p) st files).errors =
      st.errors ++ files.map (fun f => (f.name, missingCredBatchError f)) := by
  induction files with
  | nil => intro st; simp
  | cons f t ih =>
    intro st
    simp only [List.foldl_cons, List.map_cons]
    cases hp : process_image f with
    | error m =>
      have hstep : processFile env s b p st f =
          { st with errors := st.errors ++ [(f.name, m)] } := by
        simp [processFile, hp]
      rw [hstep]
      rcases ih _ with ⟨ih1, ih2⟩
      refine ⟨ih1, ?_⟩
      rw [ih2]
      simp [missingCredBatchError, hp]
    | ok image =>
      have hstep : processFile env s b p st f =
          { st with
            errors := st.errors ++ [(f.name, missingCredentialMsg)],
            extractCalls := st.extractCalls + 1 } := by
        simp [processFile, hp, hext image]
      rw [hstep]
      rcases ih _ with ⟨ih1, ih2⟩
      refine ⟨ih1, ?_⟩
      rw [ih2]
      simp [missingCredBatchError, hp]

/-- Counterexample to C5: with no credential anywhere, a batch holding
one oversized file yields the `SizeExceeded` message for that file,
not the `MissingCredential` one — so not *every* file in the batch
yields the credential error. -/
theorem no_credential_counterexample :
    (runBatch none ⟨none, none⟩ ⟨[], fun _ _ _ => Except.ok ""⟩ "p"
      [⟨"big.png", 6 * 1024 * 1024,
        Except.ok ⟨ColorMode.RGB, 10, 10⟩⟩]).errors =
      [("big.png", sizeExceededMsg)] ∧
    sizeExceededMsg ≠ missingCredentialMsg := by
  decide

/-- C5 (amended): with no credential in any of the three sources,
every extraction fails with `MissingCredential` (whose message tells
the user the service is not configured and to contact the
administrator), every file that passes normalization yields exactly
that error (files the normalizer rejects yield their normalization
error instead), and the ResultSet remains empty after the batch run. -/
theorem no_credential_batch (env : Option String) (s : Secrets)
    (b : Backend) (p : String) (files : List UploadedFile)
    (henv : env = none) (htop : s.top = none)
    (hgen : s.general = none ∨ s.general = some none) :
    (∀ image, extract_text_gemini env s b image p =
      Except.error missingCredentialMsg) ∧
    (runBatch env s b p files).ocr_result = [] ∧
    (runBatch env s b p files).errors =
      files.map (fun f => (f.name, missingCredBatchError f)) := by
  have hres := resolveApiKey_of_absent env s henv htop hgen
  have hext : ∀ image, extract_text_gemini env s b image p =
      Except.error missingCredentialMsg := by
    intro image
    simp [extract_text_gemini, hres, pyFalsy]
  rcases foldl_all_missing_cred env s b p hext files ⟨[], [], 0⟩ with ⟨h1, h2⟩
  exact ⟨hext, h1, by rw [runBatch, h2]; simp⟩

/-- Witness for C5 (amended): with all three sources absent, a
one-file batch of a small decodable image stores nothing and reports
the `MissingCredential` message for that file. -/
theorem no_credential_batch_witness :
    (∀ image,
      extract_text_gemini none ⟨none, some none⟩
          ⟨[], fun _ _ _ => Except.ok ""⟩ image "p" =
        Except.error missingCredentialMsg) ∧
    (runBatch none ⟨none, some none⟩ ⟨[], fun _ _ _ => Except.ok ""⟩ "p"
      [⟨"a.png", 100, Except.ok ⟨ColorMode.RGB, 10, 10⟩⟩]).ocr_result =
      [] ∧
    (runBatch none ⟨none, some none⟩ ⟨[], fun _ _ _ => Except.ok ""⟩ "p"
      [⟨"a.png", 100, Except.ok ⟨ColorMode.RGB, 10, 10⟩⟩]).errors =
      [⟨"a.png", 100, Except.ok ⟨ColorMode.RGB, 10, 10⟩⟩].map
        (fun f => (f.name, missingCredBatchError f)) :=
  no_credential_batch none ⟨none, some none⟩
    ⟨[], fun _ _ _ => Except.ok ""⟩ "p"
    [⟨"a.png", 100, Except.ok ⟨ColorMode.RGB, 10, 10⟩⟩]
    rfl rfl (Or.inr rfl)

end OcrApp
